import Mathlib

/-!
Shallow embedding of the hostpath provisioner
(`examples/hostpath-provisioner/hostpath-provisioner.go` and the unnamed
variant of the same program) for checking the specification's claims.

The embedding models:
  * Go's `path.Clean` / `path.Join` (standard library, used at the single
    call site `path.Join(pvDir, ...)`),
  * the Kubernetes API objects exactly as far as the program reads or
    writes them (`PersistentVolumeClaim`, `StorageClass`, `PersistentVolume`),
  * the provisioner type and its three operations
    (`NewHostPathProvisioner`, `Provision`, `Delete`).

Filesystem effects (`os.MkdirAll`, `os.RemoveAll`) are passed to the
operations as explicit state-transforming parameters, so that claims about
error pass-through hold for every filesystem behaviour, and claims about
idempotence are proved against a concrete model of the documented Go
semantics of those two calls.
-/

namespace HostPath

/-! ## Go `path.Clean` and `path.Join` -/

/-- Splits a character list on `'/'`.  `splitSlash "a//b".data = ["a", "", "b"]`
(as character lists).  This is the component view under which Go's
`path.Clean` is specified. -/
def splitSlash : List Char → List (List Char)
  | [] => [[]]
  | c :: rest =>
    if c = '/' then [] :: splitSlash rest
    else
      match splitSlash rest with
      | [] => [[c]]
      | w :: ws => (c :: w) :: ws

/-- Joins components with `'/'`; the left inverse of `splitSlash`. -/
def joinSlash : List (List Char) → List Char
  | [] => []
  | [c] => c
  | c :: cs => c ++ '/' :: joinSlash cs

/-- One step of Go `path.Clean`'s element processing: empty components and
`"."` are dropped; `".."` erases the preceding component, is a no-op at the
root of a rooted path, and accumulates at the front of an unrooted path;
every other component is kept. -/
def cleanStep (rooted : Bool) (stack : List (List Char)) (c : List Char) :
    List (List Char) :=
  if c = [] ∨ c = ['.'] then stack
  else if c = ['.', '.'] then
    match stack with
    | [] => if rooted then [] else [['.', '.']]
    | top :: rest => if top = ['.', '.'] then c :: stack else rest
  else c :: stack

/-- Whether the path is rooted (Go: `path[0] == '/'`). -/
def isRooted : List Char → Bool
  | c :: _ => c == '/'
  | [] => false

/-- Element processing of Go `path.Clean` on a character list. -/
def cleanChars (l : List Char) : List Char :=
  let rooted := isRooted l
  let out := joinSlash (((splitSlash l).foldl (cleanStep rooted) []).reverse)
  if rooted then '/' :: out else out

/-- Model of Go `path.Clean`: shortest lexically equivalent path, per the
rules documented on `path.Clean` (collapse multiple slashes, drop `.`
elements, resolve `..` against preceding elements, drop `..` at the root),
returning `"."` for an empty result. -/
def pathClean (s : String) : String :=
  if s.data = [] then "."
  else
    let out := cleanChars s.data
    if out = [] then "." else ⟨out⟩

/-- Model of Go `path.Join` at two arguments (the arity of the one call
site): empty elements are ignored, the rest are joined with `/` and the
result cleaned; all-empty input gives `""`. -/
def pathJoin (e1 e2 : String) : String :=
  if e1 = "" then
    if e2 = "" then "" else pathClean e2
  else pathClean (e1 ++ "/" ++ e2)

/-! ## Data model

Kubernetes API objects, narrowed to exactly the fields the program reads
or writes.  Go string-keyed maps become association lists; indexing a Go
map yields the zero value `""` on a missing key (`mapGet`), while the
two-result form `v, ok := m[k]` becomes `List.lookup`.  `resource.Quantity`
is opaque to the program, so it is carried as a string. -/

/-- Go map indexing `m[k]`: the value, or the zero value `""` if absent. -/
def mapGet (m : List (String × String)) (k : String) : String :=
  match m.lookup k with
  | some v => v
  | none => ""

/-- Go `resource.Quantity`, never inspected by this program. -/
abbrev Quantity := String

structure ResourceRequirements where
  Requests : List (String × Quantity)
  deriving DecidableEq

structure PersistentVolumeClaimSpec where
  AccessModes : List String
  Resources : ResourceRequirements
  deriving DecidableEq

/-- The claim, as read by `Provision`: `Namespace`, `Name`, the label map
(read through `GetLabels`), access modes and resource requests. -/
structure PersistentVolumeClaim where
  Namespace : String
  Name : String
  Labels : List (String × String)
  Spec : PersistentVolumeClaimSpec
  deriving DecidableEq

/-- The storage class, of which the program reads only the
`ReclaimPolicy` field — a pointer in Go, hence an `Option` here. -/
structure StorageClass where
  ReclaimPolicy : Option String
  deriving DecidableEq

/-- Type `controller.ProvisionOptions`: the claim, the driver-assigned volume
name and the storage class. -/
structure ProvisionOptions where
  PVC : PersistentVolumeClaim
  PVName : String
  StorageClass : StorageClass
  deriving DecidableEq

structure HostPathVolumeSource where
  Path : String
  deriving DecidableEq

structure PersistentVolumeSpec where
  PersistentVolumeReclaimPolicy : String
  AccessModes : List String
  Capacity : List (String × Quantity)
  HostPath : HostPathVolumeSource
  deriving DecidableEq

/-- The volume descriptor built by `Provision` and consumed by `Delete`
(`ObjectMeta` fields promoted, as Go's embedding does). -/
structure PersistentVolume where
  Name : String
  Annotations : List (String × String)
  Spec : PersistentVolumeSpec
  deriving DecidableEq

/-! ## The provisioner -/

/-- Label values recognized by the `switch` in `Provision`. -/
def zk : String := "zk"
def mongodb : String := "mongodb"
def es : String := "es"
def kafka : String := "kafka"

structure pvDirs where
  zkDir : String
  esDir : String
  mongodbDir : String
  kafkaDir : String
  deriving DecidableEq

structure hostPathProvisioner where
  pvDirs : pvDirs
  identity : String
  deriving DecidableEq

/-- Errors the program can return.  `goError` is `errors.New`,
`ignoredError` is `controller.IgnoredError{Reason: ...}` (the distinguished
ignorable kind), `fsError` stands for an error value surfaced by the
operating system from `os.MkdirAll` / `os.RemoveAll`. -/
inductive GoError where
  | goError (msg : String)
  | ignoredError (reason : String)
  | fsError (msg : String)
  deriving DecidableEq

/-- Outcome of `Provision`: the Go `(pv, err)` pair, plus the runtime
panic that dereferencing a nil `ReclaimPolicy` pointer would raise.  Each
outcome carries the filesystem state after the call. -/
inductive ProvResult (σ : Type) where
  | success (pv : PersistentVolume) (fs : σ)
  | failure (e : GoError) (fs : σ)
  | nilDeref (fs : σ)
  deriving DecidableEq

/-- The `switch labels["app"]` of `Provision`, selecting the base
directory (default case: the fixed fallback directory). -/
def provisionPvDir (p : hostPathProvisioner) (app : String) : String :=
  if app = zk then p.pvDirs.zkDir
  else if app = mongodb then p.pvDirs.mongodbDir
  else if app = es then p.pvDirs.esDir
  else if app = kafka then p.pvDirs.kafkaDir
  else "/tmp/nirmata-hostpath-provisioner"

/-- The target path computed by `Provision`:
`path.Join(pvDir, options.PVC.Namespace+"-"+options.PVC.Name+"-"+options.PVName)`. -/
def provisionPath (p : hostPathProvisioner) (options : ProvisionOptions) : String :=
  pathJoin (provisionPvDir p (mapGet options.PVC.Labels "app"))
    (options.PVC.Namespace ++ "-" ++ options.PVC.Name ++ "-" ++ options.PVName)

/-- Operation `Provision`, parametrized by the behaviour of `os.MkdirAll` (path,
permission mode, filesystem state in; optional error and new state out).
Mirrors the source order: resolve directory, compute path, `MkdirAll`
(early return on error), then build the descriptor — which dereferences
the `ReclaimPolicy` pointer. -/
def Provision {σ : Type} (p : hostPathProvisioner)
    (mkdirAll : String → Nat → σ → Option GoError × σ)
    (options : ProvisionOptions) (fs : σ) : ProvResult σ :=
  let path := provisionPath p options
  match mkdirAll path 0o755 fs with
  | (some e, fs') => .failure e fs'
  | (none, fs') =>
    match options.StorageClass.ReclaimPolicy with
    | none => .nilDeref fs'
    | some reclaim =>
      .success
        { Name := options.PVName
          Annotations :=
            [("hostPathProvisionerIdentity", p.identity), ("hostpath", path)]
          Spec :=
            { PersistentVolumeReclaimPolicy := reclaim
              AccessModes := options.PVC.Spec.AccessModes
              Capacity :=
                [("storage", mapGet options.PVC.Spec.Resources.Requests "storage")]
              HostPath := { Path := path } } }
        fs'

/-- Operation `Delete`, parametrized by the behaviour of `os.RemoveAll`.  Mirrors
the source order: identity annotation lookup, identity comparison,
hostpath annotation lookup, then `RemoveAll` whose error (if any) is
returned as is. -/
def Delete {σ : Type} (p : hostPathProvisioner)
    (removeAll : String → σ → Option GoError × σ)
    (fs : σ) (volume : PersistentVolume) : Option GoError × σ :=
  match volume.Annotations.lookup "hostPathProvisionerIdentity" with
  | none => (some (.goError "identity annotation not found on PV"), fs)
  | some ann =>
    if ann ≠ p.identity then
      (some (.ignoredError "identity annotation on PV does not match ours"), fs)
    else
      match volume.Annotations.lookup "hostpath" with
      | none => (some (.goError "hostpath annotation not found on PV"), fs)
      | some path => removeAll path fs

/-- Constructor `NewHostPathProvisioner` of the `examples/hostpath-provisioner`
variant, with `os.Getenv` supplied as an association list (`""` when
unset).  A `klog.Fatal` exit is `none`.  `NODE_NAME` is required; of the
four directory variables only `ES_PV_DIR` may be empty.  The returned
struct literal sets `zkDir`, `mongodbDir` and `kafkaDir` from the cached
environment but omits `esDir`, which therefore keeps Go's zero value `""`. -/
def NewHostPathProvisioner (env : List (String × String)) :
    Option hostPathProvisioner :=
  let nodeName := mapGet env "NODE_NAME"
  if nodeName = "" then none
  else
    let dirs := ["ZK_PV_DIR", "MONGODB_PV_DIR", "ES_PV_DIR", "KAFKA_PV_DIR"]
    if dirs.any (fun dir => mapGet env dir == "" && dir != "ES_PV_DIR") then none
    else
      some
        { pvDirs :=
            { zkDir := mapGet env "ZK_PV_DIR"
              mongodbDir := mapGet env "MONGODB_PV_DIR"
              kafkaDir := mapGet env "KAFKA_PV_DIR"
              esDir := "" }
          identity := nodeName }

/-! ## Concrete filesystem model

A filesystem state is the list of existing directory paths.  `mkdirAllFS`
models the documented semantics of `os.MkdirAll`: it creates the directory
and all missing parents and succeeds if the directory already exists.
`removeAllFS` models `os.RemoveAll`: it removes the path and everything
under it, and succeeds when the path is already absent. -/

abbrev FS := List String

def insertFS (fs : FS) (path : String) : FS :=
  if path ∈ fs then fs else path :: fs

/-- The chain of directories `MkdirAll` ensures: every leading component
group of the path. `dirChain ["a","b","c"] = ["a","a/b","a/b/c"]` (as
character lists). -/
def dirChain : List (List Char) → List (List Char)
  | [] => []
  | c :: rest => c :: (dirChain rest).map (fun t => c ++ '/' :: t)

def mkdirAllFS (path : String) (_perm : Nat) (fs : FS) : Option GoError × FS :=
  (none, ((dirChain (splitSlash path.data)).map String.mk).foldl insertFS fs)

/-- Tests whether `q` lies in the subtree rooted at `root`. -/
def underPath (root q : String) : Bool :=
  q == root || (root ++ "/").isPrefixOf q

def removeAllFS (path : String) (fs : FS) : Option GoError × FS :=
  (none, fs.filter (fun q => !underPath path q))

/-! ## Path algebra -/

/-- A character list that is a valid single path component: nonempty, not
`"."`, not `".."`, slash-free.  `pathClean` keeps such components intact. -/
def goodComp (c : List Char) : Prop :=
  c ≠ [] ∧ c ≠ ['.'] ∧ c ≠ ['.', '.'] ∧ '/' ∉ c

instance (c : List Char) : Decidable (goodComp c) := by
  unfold goodComp; infer_instance

/-- A clean absolute directory string: `'/'` followed by one or more good
components joined by `'/'`.  Both configured base directories and the
fallback `/tmp/nirmata-hostpath-provisioner` have this shape. -/
def IsCleanAbs (d : String) : Prop :=
  ∃ cs : List (List Char), cs ≠ [] ∧ (∀ c ∈ cs, goodComp c) ∧
    d.data = '/' :: joinSlash cs

/-- A name free of `'-'` and `'/'` (Kubernetes object names never contain
`'/'`; dash-freedom is what makes the `-`-joined composite key injective). -/
def SimpleName (s : String) : Prop := '-' ∉ s.data ∧ '/' ∉ s.data

instance (s : String) : Decidable (SimpleName s) := by
  unfold SimpleName; infer_instance

/-- The final `/`-separated component of a path string.  For dash- and
slash-free names the composite key always ends up here, whatever the base
directory, which is what makes the computed paths injective in the names. -/
def lastComp (s : String) : List Char := (splitSlash s.data).getLastD []

/-! ## Concrete fixtures

Closed inputs used by counterexamples and witnesses: the spec's worked
example (identity `node-a`, zk directory `/var/data/zk`, claim
`default/pvc1` labeled `app=zk`, assigned volume name `pv-1`), a colliding
pair of claim contexts, a dash-free pair, descriptors for the `Delete`
checks, and an environment for the constructor. -/

def exampleDirs : pvDirs :=
  { zkDir := "/var/data/zk", esDir := "/var/data/es",
    mongodbDir := "/var/data/mongodb", kafkaDir := "/var/data/kafka" }

def exampleProvisioner : hostPathProvisioner :=
  { pvDirs := exampleDirs, identity := "node-a" }

def exampleClaim : PersistentVolumeClaim :=
  { Namespace := "default", Name := "pvc1", Labels := [("app", "zk")],
    Spec := { AccessModes := ["ReadWriteOnce"],
              Resources := { Requests := [("storage", "1Gi")] } } }

def exampleOptions : ProvisionOptions :=
  { PVC := exampleClaim, PVName := "pv-1",
    StorageClass := { ReclaimPolicy := some "Delete" } }

/-- The descriptor the worked example is expected to produce. -/
def examplePV : PersistentVolume :=
  { Name := "pv-1"
    Annotations :=
      [("hostPathProvisionerIdentity", "node-a"),
       ("hostpath", "/var/data/zk/default-pvc1-pv-1")]
    Spec :=
      { PersistentVolumeReclaimPolicy := "Delete"
        AccessModes := ["ReadWriteOnce"]
        Capacity := [("storage", "1Gi")]
        HostPath := { Path := "/var/data/zk/default-pvc1-pv-1" } } }

/-- Filesystem state after the worked example's `MkdirAll`. -/
def exampleFS : FS := (mkdirAllFS "/var/data/zk/default-pvc1-pv-1" 0o755 []).2

/-- First of two distinct claim contexts whose computed paths collide
(namespace `a-b`, name `c`). -/
def collideOptions1 : ProvisionOptions :=
  { PVC := { Namespace := "a-b", Name := "c", Labels := [("app", "zk")],
             Spec := { AccessModes := [], Resources := { Requests := [] } } },
    PVName := "v", StorageClass := { ReclaimPolicy := some "Delete" } }

/-- Second colliding claim context (namespace `a`, name `b-c`). -/
def collideOptions2 : ProvisionOptions :=
  { PVC := { Namespace := "a", Name := "b-c", Labels := [("app", "zk")],
             Spec := { AccessModes := [], Resources := { Requests := [] } } },
    PVName := "v", StorageClass := { ReclaimPolicy := some "Delete" } }

/-- A dash-free claim context, for the amended uniqueness claim. -/
def uniqOptions1 : ProvisionOptions :=
  { PVC := { Namespace := "default", Name := "pvc1", Labels := [("app", "zk")],
             Spec := { AccessModes := [], Resources := { Requests := [] } } },
    PVName := "pv1", StorageClass := { ReclaimPolicy := some "Delete" } }

/-- A second dash-free claim context differing in namespace — and carrying
a different label (`app=es`), so that with an empty `esDir` the uniqueness
witness covers a cross-category pair with an empty base directory. -/
def uniqOptions2 : ProvisionOptions :=
  { PVC := { Namespace := "other", Name := "pvc1", Labels := [("app", "es")],
             Spec := { AccessModes := [], Resources := { Requests := [] } } },
    PVName := "pv1", StorageClass := { ReclaimPolicy := some "Delete" } }

def emptySpec : PersistentVolumeSpec :=
  { PersistentVolumeReclaimPolicy := "Delete", AccessModes := [],
    Capacity := [], HostPath := { Path := "" } }

/-- A descriptor owned by `node-a` with both annotations set. -/
def ownedPV : PersistentVolume :=
  { Name := "pv-1"
    Annotations :=
      [("hostPathProvisionerIdentity", "node-a"),
       ("hostpath", "/var/data/zk/default-pvc1-pv-1")]
    Spec := emptySpec }

/-- A descriptor created by another instance (`node-b`). -/
def foreignPV : PersistentVolume :=
  { Name := "pv-1"
    Annotations :=
      [("hostPathProvisionerIdentity", "node-b"),
       ("hostpath", "/var/data/zk/default-pvc1-pv-1")]
    Spec := emptySpec }

/-- A descriptor missing the identity annotation. -/
def noIdentityPV : PersistentVolume :=
  { Name := "pv-1"
    Annotations := [("hostpath", "/var/data/zk/default-pvc1-pv-1")]
    Spec := emptySpec }

/-- A descriptor with a matching identity but no hostpath annotation. -/
def noPathPV : PersistentVolume :=
  { Name := "pv-1"
    Annotations := [("hostPathProvisionerIdentity", "node-a")]
    Spec := emptySpec }

/-- An environment with every variable set, including `ES_PV_DIR`. -/
def exampleEnv : List (String × String) :=
  [("NODE_NAME", "node-a"), ("ZK_PV_DIR", "/var/data/zk"),
   ("MONGODB_PV_DIR", "/var/data/mongodb"), ("ES_PV_DIR", "/var/data/es"),
   ("KAFKA_PV_DIR", "/var/data/kafka")]

/-- The provisioner `NewHostPathProvisioner` builds from `exampleEnv`:
`esDir` is empty even though `ES_PV_DIR` was set. -/
def envProvisioner : hostPathProvisioner :=
  { pvDirs := { zkDir := "/var/data/zk", esDir := "",
                mongodbDir := "/var/data/mongodb",
                kafkaDir := "/var/data/kafka" },
    identity := "node-a" }

/-- A claim context labeled `app=es`. -/
def esOptions : ProvisionOptions :=
  { PVC := { Namespace := "default", Name := "pvc1", Labels := [("app", "es")],
             Spec := { AccessModes := [], Resources := { Requests := [] } } },
    PVName := "pv-1", StorageClass := { ReclaimPolicy := some "Delete" } }

/-- An `os.MkdirAll` behaviour that always fails with a permission error
and leaves the state untouched. -/
def failMkdir : String → Nat → FS → Option GoError × FS :=
  fun _ _ fs => (some (.fsError "permission denied"), fs)

theorem eq_of_data_eq {s t : String} (h : s.data = t.data) : s = t := by
  cases s; cases t; exact congrArg String.mk h

theorem splitSlash_ne_nil (l : List Char) : splitSlash l ≠ [] := by
  cases l with
  | nil => simp [splitSlash]
  | cons c rest =>
    unfold splitSlash
    split
    · simp
    · split <;> simp

theorem splitSlash_cons_slash (b : List Char) :
    splitSlash ('/' :: b) = [] :: splitSlash b := by
  simp [splitSlash]

theorem splitSlash_append (a b : List Char) :
    splitSlash (a ++ '/' :: b) = splitSlash a ++ splitSlash b := by
  induction a with
  | nil => simp [splitSlash]
  | cons c rest ih =>
    by_cases hc : c = '/'
    · subst hc
      simp only [List.cons_append, splitSlash_cons_slash, ih]
    · simp only [List.cons_append]
      rw [splitSlash, splitSlash]
      simp only [if_neg hc]
      rw [ih]
      cases h : splitSlash rest with
      | nil => exact absurd h (splitSlash_ne_nil rest)
      | cons w ws => simp [h]

theorem splitSlash_noSlash (l : List Char) (h : '/' ∉ l) : splitSlash l = [l] := by
  induction l with
  | nil => simp [splitSlash]
  | cons c rest ih =>
    have hc : c ≠ '/' := fun e => h (by simp [e])
    have hr : '/' ∉ rest := fun m => h (List.mem_cons_of_mem _ m)
    unfold splitSlash
    simp only [if_neg hc]
    rw [ih hr]

theorem joinSlash_append_last (cs : List (List Char)) (x : List Char) (h : cs ≠ []) :
    joinSlash (cs ++ [x]) = joinSlash cs ++ '/' :: x := by
  induction cs with
  | nil => exact absurd rfl h
  | cons c cs' ih =>
    cases cs' with
    | nil => simp [joinSlash]
    | cons c' cs'' =>
      show joinSlash (c :: c' :: (cs'' ++ [x])) =
        (c ++ '/' :: joinSlash (c' :: cs'')) ++ '/' :: x
      rw [show joinSlash (c :: c' :: (cs'' ++ [x])) =
        c ++ '/' :: joinSlash ((c' :: cs'') ++ [x]) from rfl]
      rw [ih (List.cons_ne_nil c' cs'')]
      simp [List.append_assoc]

theorem splitSlash_joinSlash (cs : List (List Char)) (hne : cs ≠ [])
    (h : ∀ c ∈ cs, '/' ∉ c) : splitSlash (joinSlash cs) = cs := by
  induction cs with
  | nil => exact absurd rfl hne
  | cons c cs' ih =>
    cases cs' with
    | nil => simpa [joinSlash] using splitSlash_noSlash c (h c (by simp))
    | cons c' cs'' =>
      have hc : '/' ∉ c := h c (by simp)
      have hrest : ∀ x ∈ c' :: cs'', '/' ∉ x := fun x hx => h x (by simp [hx])
      rw [show joinSlash (c :: c' :: cs'') = c ++ '/' :: joinSlash (c' :: cs'') from rfl]
      rw [splitSlash_append, splitSlash_noSlash c hc,
        ih (List.cons_ne_nil c' cs'') hrest]
      rfl

theorem cleanStep_good (rooted : Bool) (stack : List (List Char))
    (c : List Char) (hc : goodComp c) : cleanStep rooted stack c = c :: stack := by
  obtain ⟨h1, h2, h3, _⟩ := hc
  unfold cleanStep
  rw [if_neg (by simp [h1, h2]), if_neg h3]

theorem foldl_cleanStep_good (rooted : Bool) (cs : List (List Char)) :
    ∀ stack, (∀ c ∈ cs, goodComp c) →
      cs.foldl (cleanStep rooted) stack = cs.reverse ++ stack := by
  induction cs with
  | nil => intro stack _; simp
  | cons c cs' ih =>
    intro stack h
    rw [List.foldl_cons, cleanStep_good rooted stack c (h c (by simp)),
      ih (c :: stack) (fun x hx => h x (by simp [hx]))]
    simp

theorem cleanChars_abs (cs : List (List Char)) (hne : cs ≠ [])
    (h : ∀ c ∈ cs, goodComp c) :
    cleanChars ('/' :: joinSlash cs) = '/' :: joinSlash cs := by
  simp only [cleanChars]
  rw [show isRooted ('/' :: joinSlash cs) = true from rfl]
  rw [splitSlash_cons_slash,
    splitSlash_joinSlash cs hne (fun c hc => (h c hc).2.2.2)]
  rw [List.foldl_cons, show cleanStep true [] [] = [] from rfl,
    foldl_cleanStep_good true cs [] h]
  simp

/-- Function `pathClean` leaves a clean absolute directory extended by one good
component unchanged. -/
theorem pathClean_fix_abs (d k : String) (hd : IsCleanAbs d)
    (hk : goodComp k.data) : pathClean (d ++ "/" ++ k) = d ++ "/" ++ k := by
  obtain ⟨cs, hne, hgood, hdata⟩ := hd
  have hall : ∀ c ∈ cs ++ [k.data], goodComp c := by
    intro c hc
    rcases List.mem_append.1 hc with h | h
    · exact hgood c h
    · simp only [List.mem_singleton] at h
      exact h ▸ hk
  have hdk : (d ++ "/" ++ k).data = '/' :: joinSlash (cs ++ [k.data]) := by
    rw [String.data_append, String.data_append, hdata,
      show ("/" : String).data = ['/'] from rfl,
      joinSlash_append_last cs k.data hne]
    simp
  simp only [pathClean, hdk]
  rw [if_neg (by simp), cleanChars_abs (cs ++ [k.data]) (by simp) hall,
    if_neg (by simp)]
  exact (eq_of_data_eq hdk).symm

/-- Function `pathClean` leaves a single good component unchanged. -/
theorem pathClean_fix_comp (k : String) (hk : goodComp k.data) :
    pathClean k = k := by
  obtain ⟨h1, h2, h3, h4⟩ := hk
  have hroot : isRooted k.data = false := by
    cases h : k.data with
    | nil => rfl
    | cons c rest =>
      have hc : c ≠ '/' := fun e => h4 (by simp [h, e])
      simp [isRooted, hc]
  simp only [pathClean]
  rw [if_neg h1]
  simp only [cleanChars, hroot, splitSlash_noSlash k.data h4]
  rw [List.foldl_cons,
    cleanStep_good false [] k.data ⟨h1, h2, h3, h4⟩]
  simp only [List.foldl_nil, List.reverse_cons, List.reverse_nil,
    List.nil_append, joinSlash, Bool.false_eq_true, if_false]
  rw [if_neg h1]

/-- With a nonempty first element, `pathJoin` is clean-of-concatenation. -/
theorem pathJoin_ne_empty (d k : String) (hd : d ≠ "") :
    pathJoin d k = pathClean (d ++ "/" ++ k) := by
  simp [pathJoin, hd]

/-- Every component produced by `splitSlash` is slash-free. -/
theorem splitSlash_noSlash_mem (l : List Char) : ∀ c ∈ splitSlash l, '/' ∉ c := by
  induction l with
  | nil =>
    intro c hc
    simp [splitSlash] at hc
    subst hc
    simp
  | cons a rest ih =>
    intro c hc
    by_cases ha : a = '/'
    · subst ha
      rw [splitSlash_cons_slash] at hc
      rcases List.mem_cons.1 hc with rfl | hc'
      · simp
      · exact ih c hc'
    · rw [splitSlash, if_neg ha] at hc
      cases hsp : splitSlash rest with
      | nil => exact absurd hsp (splitSlash_ne_nil rest)
      | cons w ws =>
        rw [hsp] at hc
        rcases List.mem_cons.1 hc with rfl | hc'
        · intro hm
          rcases List.mem_cons.1 hm with e | hm'
          · exact ha e.symm
          · exact ih w (by rw [hsp]; exact List.mem_cons_self _ _) hm'
        · exact ih c (by rw [hsp]; exact List.mem_cons_of_mem _ hc')

/-- Element processing preserves slash-freedom of the stack. -/
theorem cleanStep_noSlash (b : Bool) (stack : List (List Char)) (c : List Char)
    (hs : ∀ x ∈ stack, '/' ∉ x) (hc : '/' ∉ c) :
    ∀ x ∈ cleanStep b stack c, '/' ∉ x := by
  intro x hx
  unfold cleanStep at hx
  by_cases h1 : c = [] ∨ c = ['.']
  · rw [if_pos h1] at hx
    exact hs x hx
  · by_cases h2 : c = ['.', '.']
    · rw [if_neg h1, if_pos h2] at hx
      cases stack with
      | nil =>
        cases b with
        | true => simp at hx
        | false =>
          simp at hx
          subst hx
          decide
      | cons top rest =>
        have hx' : x ∈ if top = ['.', '.'] then c :: top :: rest else rest := hx
        by_cases h3 : top = ['.', '.']
        · rw [if_pos h3] at hx'
          rcases List.mem_cons.1 hx' with rfl | hx''
          · exact hc
          · exact hs x hx''
        · rw [if_neg h3] at hx'
          exact hs x (List.mem_cons_of_mem _ hx')
    · rw [if_neg h1, if_neg h2] at hx
      rcases List.mem_cons.1 hx with rfl | hx'
      · exact hc
      · exact hs x hx'

/-- The whole clean fold preserves slash-freedom of the stack. -/
theorem foldl_cleanStep_noSlash (b : Bool) (comps : List (List Char)) :
    ∀ stack, (∀ x ∈ stack, '/' ∉ x) → (∀ c ∈ comps, '/' ∉ c) →
      ∀ x ∈ comps.foldl (cleanStep b) stack, '/' ∉ x := by
  induction comps with
  | nil => intro stack hs _ x hx; exact hs x hx
  | cons c comps' ih =>
    intro stack hs hc x hx
    rw [List.foldl_cons] at hx
    exact ih (cleanStep b stack c)
      (cleanStep_noSlash b stack c hs (hc c (by simp)))
      (fun c' h => hc c' (by simp [h])) x hx

theorem joinSlash_nil_cons (x : List Char) (rest : List (List Char)) :
    joinSlash ([] :: x :: rest) = '/' :: joinSlash (x :: rest) := rfl

theorem joinSlash_concat_ne_nil (A : List (List Char)) (x : List Char)
    (hx : x ≠ []) : joinSlash (A ++ [x]) ≠ [] := by
  cases A with
  | nil => simpa [joinSlash] using hx
  | cons a as =>
    cases has : as ++ [x] with
    | nil => exact absurd has (by simp)
    | cons z zs =>
      rw [List.cons_append, has,
        show joinSlash (a :: z :: zs) = a ++ '/' :: joinSlash (z :: zs) from rfl]
      simp

/-- Cleaning a path that ends in a good slash-free component produces a
path whose components are some slash-free prefix list followed by exactly
that component: the key survives cleaning as the last component, whatever
the leading directory string. -/
theorem cleanChars_append_key (d k : List Char) (hk : goodComp k) :
    ∃ A, (∀ c ∈ A, '/' ∉ c) ∧
      cleanChars (d ++ '/' :: k) = joinSlash (A ++ [k]) := by
  have hcomps : splitSlash (d ++ '/' :: k) = splitSlash d ++ [k] := by
    rw [splitSlash_append, splitSlash_noSlash k hk.2.2.2]
  simp only [cleanChars, hcomps, List.foldl_append, List.foldl_cons,
    List.foldl_nil]
  rw [cleanStep_good _ _ k hk, List.reverse_cons]
  have hSfree : ∀ x ∈
      ((splitSlash d).foldl (cleanStep (isRooted (d ++ '/' :: k))) []).reverse,
      '/' ∉ x := by
    intro x hx
    exact foldl_cleanStep_noSlash _ _ [] (by simp) (splitSlash_noSlash_mem d)
      x (List.mem_reverse.1 hx)
  cases hb : isRooted (d ++ '/' :: k) with
  | false =>
    rw [hb] at hSfree
    refine ⟨_, hSfree, ?_⟩
    simp
  | true =>
    rw [hb] at hSfree
    refine ⟨[] :: ((splitSlash d).foldl (cleanStep true) []).reverse, ?_, ?_⟩
    · intro c hc
      rcases List.mem_cons.1 hc with rfl | hc'
      · simp
      · exact hSfree c hc'
    · rw [if_pos rfl]
      simp only [List.cons_append]
      cases hparts :
          ((splitSlash d).foldl (cleanStep true) []).reverse ++ [k] with
      | nil => exact absurd hparts (by simp)
      | cons z zs => exact (joinSlash_nil_cons z zs).symm


/-- The key is the last component of `pathJoin d k`, for every `d`. -/
theorem lastComp_pathJoin (d k : String) (hk : goodComp k.data) :
    lastComp (pathJoin d k) = k.data := by
  by_cases hd : d = ""
  · subst hd
    have hkne : k ≠ "" := fun e => hk.1 (congrArg String.data e)
    rw [pathJoin, if_pos rfl, if_neg hkne, pathClean_fix_comp k hk]
    unfold lastComp
    rw [splitSlash_noSlash k.data hk.2.2.2]
    rfl
  · rw [pathJoin_ne_empty d k hd]
    obtain ⟨A, hAfree, hA⟩ := cleanChars_append_key d.data k.data hk
    have hsd : (d ++ "/" ++ k).data = d.data ++ '/' :: k.data := by
      simp [String.data_append, show ("/" : String).data = ['/'] from rfl]
    unfold pathClean
    rw [hsd, hA, if_neg (by simp),
      if_neg (joinSlash_concat_ne_nil A k.data hk.1)]
    unfold lastComp
    rw [show (String.mk (joinSlash (A ++ [k.data]))).data =
        joinSlash (A ++ [k.data]) from rfl]
    rw [splitSlash_joinSlash (A ++ [k.data]) (by simp) ?hfree]
    case hfree =>
      intro c hc
      rcases List.mem_append.1 hc with h | h
      · exact hAfree c h
      · simp only [List.mem_singleton] at h
        exact h ▸ hk.2.2.2
    exact List.getLastD_concat _ _ _

/-- Splitting at the separating dash is unambiguous when the left parts
are dash-free. -/
theorem dash_split_cancel : ∀ (a a' b b' : List Char), '-' ∉ a → '-' ∉ a' →
    a ++ '-' :: b = a' ++ '-' :: b' → a = a' ∧ b = b' := by
  intro a
  induction a with
  | nil =>
    intro a' b b' _ ha' h
    cases a' with
    | nil => simpa using h
    | cons c t =>
      simp only [List.nil_append, List.cons_append, List.cons.injEq] at h
      exact absurd (h.1 ▸ List.mem_cons_self _ _) ha'
  | cons c t ih =>
    intro a' b b' ha ha' h
    cases a' with
    | nil =>
      simp only [List.cons_append, List.nil_append, List.cons.injEq] at h
      exact absurd (h.1 ▸ List.mem_cons_self _ _) (fun m => ha (h.1 ▸ m))
    | cons c' t' =>
      simp only [List.cons_append, List.cons.injEq] at h
      obtain ⟨hc, hrest⟩ := h
      have hres := ih t' b b' (fun m => ha (List.mem_cons_of_mem _ m))
        (fun m => ha' (List.mem_cons_of_mem _ m)) hrest
      exact ⟨by rw [hc, hres.1], hres.2⟩

/-- The `-`-joined composite key is a good path component whenever its
three parts are slash-free. -/
theorem goodComp_key (ns n v : String)
    (hns : '/' ∉ ns.data) (hn : '/' ∉ n.data) (hv : '/' ∉ v.data) :
    goodComp (ns ++ "-" ++ n ++ "-" ++ v).data := by
  have hdata : (ns ++ "-" ++ n ++ "-" ++ v).data
      = ns.data ++ '-' :: (n.data ++ '-' :: v.data) := by
    simp [String.data_append, show ("-" : String).data = ['-'] from rfl,
      List.append_assoc]
  have hdash : '-' ∈ (ns ++ "-" ++ n ++ "-" ++ v).data := by
    rw [hdata]
    exact List.mem_append.2 (Or.inr (List.mem_cons_self _ _))
  refine ⟨?_, ?_, ?_, ?_⟩
  · intro e; rw [e] at hdash; exact absurd hdash (by decide)
  · intro e; rw [e] at hdash; exact absurd hdash (by decide)
  · intro e; rw [e] at hdash; exact absurd hdash (by decide)
  · rw [hdata]
    intro hm
    rcases List.mem_append.1 hm with h | h
    · exact hns h
    · rcases List.mem_cons.1 h with e | h
      · exact absurd e (by decide)
      · rcases List.mem_append.1 h with h | h
        · exact hn h
        · rcases List.mem_cons.1 h with e | h
          · exact absurd e (by decide)
          · exact hv h

/-! ## Filesystem model lemmas -/

theorem insertFS_of_mem {fs : FS} {p : String} (h : p ∈ fs) :
    insertFS fs p = fs := by
  simp [insertFS, h]

theorem mem_insertFS_self (fs : FS) (p : String) : p ∈ insertFS fs p := by
  by_cases h : p ∈ fs <;> simp [insertFS, h]

theorem mem_insertFS_of_mem {fs : FS} {q : String} (p : String) (h : q ∈ fs) :
    q ∈ insertFS fs p := by
  by_cases hp : p ∈ fs <;> simp [insertFS, hp, h]

theorem mem_foldl_insertFS (ps : List String) :
    ∀ fs q, q ∈ fs → q ∈ ps.foldl insertFS fs := by
  induction ps with
  | nil => intro fs q h; simpa using h
  | cons p ps' ih => intro fs q h; exact ih _ _ (mem_insertFS_of_mem p h)

theorem mem_list_foldl_insertFS (ps : List String) :
    ∀ fs q, q ∈ ps → q ∈ ps.foldl insertFS fs := by
  induction ps with
  | nil => intro fs q h; simp at h
  | cons p ps' ih =>
    intro fs q h
    rcases List.mem_cons.1 h with rfl | h'
    · exact mem_foldl_insertFS ps' _ q (mem_insertFS_self fs q)
    · exact ih _ _ h'

theorem foldl_insertFS_subset (ps : List String) :
    ∀ fs, (∀ q ∈ ps, q ∈ fs) → ps.foldl insertFS fs = fs := by
  induction ps with
  | nil => intro fs _; rfl
  | cons p ps' ih =>
    intro fs h
    rw [List.foldl_cons, insertFS_of_mem (h p (by simp))]
    exact ih fs (fun q hq => h q (by simp [hq]))

/-- A second `MkdirAll` of the same path is a successful no-op. -/
theorem mkdirAllFS_idem (path : String) (perm perm' : Nat) (fs : FS) :
    mkdirAllFS path perm' (mkdirAllFS path perm fs).2 =
      (none, (mkdirAllFS path perm fs).2) := by
  simp only [mkdirAllFS]
  exact congrArg (Prod.mk none)
    (foldl_insertFS_subset _ _ (fun q hq => mem_list_foldl_insertFS _ _ _ hq))

theorem filter_idem (f : String → Bool) (l : List String) :
    (l.filter f).filter f = l.filter f := by
  induction l with
  | nil => rfl
  | cons a l' ih =>
    by_cases h : f a = true
    · simp [List.filter_cons, h, ih]
    · simp [List.filter_cons, h, ih]

/-! ## Claims -/

/-- Claim C1, counterexample: two claim contexts that differ in namespace
(and in claim name) but receive the same computed path, because the `-`
separator is not escaped: `a-b` + `c` and `a` + `b-c` both produce the
composite key `a-b-c-v`. -/
theorem provisionPath_collision :
    collideOptions1.PVC.Namespace ≠ collideOptions2.PVC.Namespace ∧
    collideOptions1.PVC.Name ≠ collideOptions2.PVC.Name ∧
    provisionPath exampleProvisioner collideOptions1 =
      provisionPath exampleProvisioner collideOptions2 := by
  refine ⟨by decide, by decide, by decide⟩

/-- Claim C1 (amended): for any two claim contexts whose namespace, claim
name and assigned volume name are free of `-` and `/`, differing in
namespace, claim name, or volume name makes the computed paths distinct —
for every provisioner configuration, any pair of labels, and arbitrary
(even empty or unclean) base directories, since the composite key always
survives `path.Join` as the final path component. -/
theorem provisionPath_unique_amended (p : hostPathProvisioner)
    (o1 o2 : ProvisionOptions)
    (h1 : SimpleName o1.PVC.Namespace) (h2 : SimpleName o1.PVC.Name)
    (h3 : SimpleName o1.PVName) (h4 : SimpleName o2.PVC.Namespace)
    (h5 : SimpleName o2.PVC.Name) (h6 : SimpleName o2.PVName)
    (hne : o1.PVC.Namespace ≠ o2.PVC.Namespace ∨ o1.PVC.Name ≠ o2.PVC.Name ∨
      o1.PVName ≠ o2.PVName) :
    provisionPath p o1 ≠ provisionPath p o2 := by
  intro heq
  have key1good := goodComp_key o1.PVC.Namespace o1.PVC.Name o1.PVName
    h1.2 h2.2 h3.2
  have key2good := goodComp_key o2.PVC.Namespace o2.PVC.Name o2.PVName
    h4.2 h5.2 h6.2
  have hl1 := lastComp_pathJoin
    (provisionPvDir p (mapGet o1.PVC.Labels "app"))
    (o1.PVC.Namespace ++ "-" ++ o1.PVC.Name ++ "-" ++ o1.PVName) key1good
  have hl2 := lastComp_pathJoin
    (provisionPvDir p (mapGet o2.PVC.Labels "app"))
    (o2.PVC.Namespace ++ "-" ++ o2.PVC.Name ++ "-" ++ o2.PVName) key2good
  rw [provisionPath, provisionPath] at heq
  have hkey : (o1.PVC.Namespace ++ "-" ++ o1.PVC.Name ++ "-" ++ o1.PVName).data
      = (o2.PVC.Namespace ++ "-" ++ o2.PVC.Name ++ "-" ++ o2.PVName).data := by
    rw [← hl1, ← hl2, heq]
  simp only [String.data_append, List.append_assoc, List.singleton_append,
    show ("-" : String).data = ['-'] from rfl] at hkey
  obtain ⟨e1, e2⟩ := dash_split_cancel _ _ _ _ h1.1 h4.1 hkey
  obtain ⟨e3, e4⟩ := dash_split_cancel _ _ _ _ h2.1 h5.1 e2
  rcases hne with h | h | h
  · exact h (eq_of_data_eq e1)
  · exact h (eq_of_data_eq e3)
  · exact h (eq_of_data_eq e4)

/-- Claim C1 (amended), witness: the amended statement at a dash-free pair
differing in namespace and in label (`app=zk` against `app=es`), over the
provisioner whose `esDir` is empty — a cross-category pair with an empty
base directory. -/
theorem provisionPath_unique_witness :
    provisionPath envProvisioner uniqOptions1 ≠
      provisionPath envProvisioner uniqOptions2 :=
  provisionPath_unique_amended envProvisioner uniqOptions1 uniqOptions2
    (by decide) (by decide) (by decide) (by decide) (by decide) (by decide)
    (Or.inl (by decide))

/-- Claim C2: for every claim context with slash-free names and a clean
absolute resolved base directory, the computed path is the resolved base
directory joined (by a literal `/`) with `namespace-name-volname`; a
recognized `app` label (`zk`, `mongodb`, `es`, `kafka`) selects that
category's configured directory and anything else selects the fixed
fallback; and on the worked example `Provision` yields path
`/var/data/zk/default-pvc1-pv-1` with both annotations set. -/
theorem provision_path_category (p : hostPathProvisioner) (o : ProvisionOptions)
    (hdir : IsCleanAbs (provisionPvDir p (mapGet o.PVC.Labels "app")))
    (hns : '/' ∉ o.PVC.Namespace.data) (hn : '/' ∉ o.PVC.Name.data)
    (hv : '/' ∉ o.PVName.data) :
    provisionPath p o = provisionPvDir p (mapGet o.PVC.Labels "app") ++ "/" ++
      (o.PVC.Namespace ++ "-" ++ o.PVC.Name ++ "-" ++ o.PVName) ∧
    provisionPvDir p "zk" = p.pvDirs.zkDir ∧
    provisionPvDir p "mongodb" = p.pvDirs.mongodbDir ∧
    provisionPvDir p "es" = p.pvDirs.esDir ∧
    provisionPvDir p "kafka" = p.pvDirs.kafkaDir ∧
    (∀ app : String, app ∉ (["zk", "mongodb", "es", "kafka"] : List String) →
      provisionPvDir p app = "/tmp/nirmata-hostpath-provisioner") ∧
    Provision exampleProvisioner mkdirAllFS exampleOptions ([] : FS) =
      .success examplePV exampleFS := by
  have hdne : provisionPvDir p (mapGet o.PVC.Labels "app") ≠ "" := by
    obtain ⟨cs, _, _, hdata⟩ := hdir
    intro e
    rw [e] at hdata
    exact absurd hdata (by simp [show ("" : String).data = [] from rfl])
  have hkey := goodComp_key o.PVC.Namespace o.PVC.Name o.PVName hns hn hv
  refine ⟨?_, rfl, rfl, rfl, rfl, ?_, by decide⟩
  · rw [provisionPath, pathJoin_ne_empty _ _ hdne,
      pathClean_fix_abs _ _ hdir hkey]
  · intro app happ
    simp only [List.mem_cons, List.not_mem_nil, or_false, not_or] at happ
    obtain ⟨e1, e2, e3, e4⟩ := happ
    simp [provisionPvDir, zk, mongodb, es, kafka, e1, e2, e3, e4]

/-- Claim C2, witness: the worked example's path, derived from the
general statement. -/
theorem provision_path_category_witness :
    provisionPath exampleProvisioner exampleOptions =
      "/var/data/zk/default-pvc1-pv-1" := by
  have h := provision_path_category exampleProvisioner exampleOptions
    ⟨[['v', 'a', 'r'], ['d', 'a', 't', 'a'], ['z', 'k']],
      by decide, by decide, by decide⟩
    (by decide) (by decide) (by decide)
  exact h.1.trans (by decide)

/-- Claim C3: in the `examples/hostpath-provisioner` configuration variant
(where `ES_PV_DIR` may be absent at startup), a successfully constructed
provisioner always has an empty `esDir` — the constructor reads the value
but the returned struct literal never stores it — so every claim labeled
`app=es` resolves to the empty base directory and (for slash-free names)
its computed path is just the composite key, not under the configured es
directory. -/
theorem esDir_never_stored (env : List (String × String))
    (p : hostPathProvisioner) (hp : NewHostPathProvisioner env = some p) :
    p.pvDirs.esDir = "" ∧
    ∀ o : ProvisionOptions, mapGet o.PVC.Labels "app" = "es" →
      provisionPvDir p (mapGet o.PVC.Labels "app") = "" ∧
      ('/' ∉ o.PVC.Namespace.data → '/' ∉ o.PVC.Name.data →
        '/' ∉ o.PVName.data →
        provisionPath p o =
          o.PVC.Namespace ++ "-" ++ o.PVC.Name ++ "-" ++ o.PVName) := by
  have hes : p.pvDirs.esDir = "" := by
    simp only [NewHostPathProvisioner] at hp
    split at hp
    · exact absurd hp (by simp)
    · split at hp
      · exact absurd hp (by simp)
      · have := Option.some.inj hp
        rw [← this]
  refine ⟨hes, fun o happ => ?_⟩
  have hdir : provisionPvDir p (mapGet o.PVC.Labels "app") = "" := by
    rw [happ, show provisionPvDir p "es" = p.pvDirs.esDir from rfl, hes]
  refine ⟨hdir, fun hns hn hv => ?_⟩
  have hkey := goodComp_key o.PVC.Namespace o.PVC.Name o.PVName hns hn hv
  have hkne : o.PVC.Namespace ++ "-" ++ o.PVC.Name ++ "-" ++ o.PVName ≠ "" := by
    intro e
    exact hkey.1 (congrArg String.data e)
  rw [provisionPath, hdir, pathJoin, if_pos rfl, if_neg hkne,
    pathClean_fix_comp _ hkey]

/-- Claim C3, witness: constructing from an environment in which
`ES_PV_DIR` is set still yields an empty `esDir`, and the es-labeled
example claim's path is the bare composite key. -/
theorem esDir_never_stored_witness :
    envProvisioner.pvDirs.esDir = "" ∧
    provisionPath envProvisioner esOptions = "default-pvc1-pv-1" := by
  have h := esDir_never_stored exampleEnv envProvisioner (by decide)
  refine ⟨h.1, ?_⟩
  have h2 := (h.2 esOptions (by decide)).2 (by decide) (by decide) (by decide)
  exact h2.trans (by decide)

/-- Claim C4: on a descriptor whose identity annotation is present but
differs from this instance's identity, `Delete` returns the distinguished
ignorable error (`controller.IgnoredError`) and leaves the filesystem
state untouched — `removeAll` is never consulted, as the statement holds
for every `removeAll`. -/
theorem delete_not_mine_ignored {σ : Type} (p : hostPathProvisioner)
    (removeAll : String → σ → Option GoError × σ) (fs : σ)
    (volume : PersistentVolume) (ann : String)
    (hid : volume.Annotations.lookup "hostPathProvisionerIdentity" = some ann)
    (hne : ann ≠ p.identity) :
    Delete p removeAll fs volume =
      (some (.ignoredError "identity annotation on PV does not match ours"),
        fs) := by
  simp [Delete, hid, hne]

/-- Claim C4, witness: `node-a` refusing `node-b`'s descriptor. -/
theorem delete_not_mine_ignored_witness :
    Delete exampleProvisioner removeAllFS ([] : FS) foreignPV =
      (some (.ignoredError "identity annotation on PV does not match ours"),
        ([] : FS)) :=
  delete_not_mine_ignored exampleProvisioner removeAllFS [] foreignPV
    "node-b" (by decide) (by decide)

/-- Claim C5: `Delete` checks the identity annotation first and the
hostpath annotation second.  A descriptor with no identity annotation gets
the missing-identity error (a plain error, distinct from the ignorable
mismatch error) whatever its other annotations; a descriptor with a
matching identity but no hostpath annotation gets the missing-path error.
In both cases the filesystem state is returned untouched, for every
`removeAll` behaviour. -/
theorem delete_metadata_checks {σ : Type} (p : hostPathProvisioner)
    (removeAll : String → σ → Option GoError × σ) (fs : σ) :
    (∀ volume : PersistentVolume,
      volume.Annotations.lookup "hostPathProvisionerIdentity" = none →
      Delete p removeAll fs volume =
        (some (.goError "identity annotation not found on PV"), fs)) ∧
    (∀ volume : PersistentVolume,
      volume.Annotations.lookup "hostPathProvisionerIdentity" =
        some p.identity →
      volume.Annotations.lookup "hostpath" = none →
      Delete p removeAll fs volume =
        (some (.goError "hostpath annotation not found on PV"), fs)) ∧
    GoError.goError "identity annotation not found on PV" ≠
      GoError.ignoredError "identity annotation on PV does not match ours" := by
  refine ⟨?_, ?_, by decide⟩
  · intro volume hid
    simp [Delete, hid]
  · intro volume hid hhp
    simp [Delete, hid, hhp]

/-- Claim C5, witness: the two missing-metadata descriptors. -/
theorem delete_metadata_checks_witness :
    Delete exampleProvisioner removeAllFS ([] : FS) noIdentityPV =
      (some (.goError "identity annotation not found on PV"), ([] : FS)) ∧
    Delete exampleProvisioner removeAllFS ([] : FS) noPathPV =
      (some (.goError "hostpath annotation not found on PV"), ([] : FS)) := by
  have h := delete_metadata_checks (σ := FS) exampleProvisioner removeAllFS []
  exact ⟨h.1 noIdentityPV (by decide), h.2.1 noPathPV (by decide) (by decide)⟩

/-- Claim C6: on a descriptor owned by this instance, `Delete` against the
modelled `os.RemoveAll` succeeds, and a second `Delete` of the same
descriptor succeeds as well, leaving the state unchanged (removal of an
already-absent path is success); and whenever `RemoveAll` fails, its error
is returned verbatim, for every filesystem behaviour. -/
theorem delete_idempotent (p : hostPathProvisioner)
    (volume : PersistentVolume) (path : String) (fs : FS)
    (hid : volume.Annotations.lookup "hostPathProvisionerIdentity" =
      some p.identity)
    (hhp : volume.Annotations.lookup "hostpath" = some path) :
    (∃ fs₁, Delete p removeAllFS fs volume = (none, fs₁) ∧
      Delete p removeAllFS fs₁ volume = (none, fs₁)) ∧
    (∀ (σ : Type) (removeAll : String → σ → Option GoError × σ) (s : σ)
      (e : GoError) (s' : σ), removeAll path s = (some e, s') →
      Delete p removeAll s volume = (some e, s')) := by
  constructor
  · refine ⟨fs.filter (fun q => !underPath path q), ?_, ?_⟩
    · simp [Delete, hid, hhp, removeAllFS]
    · simp [Delete, hid, hhp, removeAllFS, filter_idem]
  · intro σ removeAll s e s' hrem
    simp [Delete, hid, hhp, hrem]

/-- Claim C6, witness: double delete of the owned example descriptor over
the populated example filesystem, plus the verbatim pass-through of a
permission error. -/
theorem delete_idempotent_witness :
    (∃ fs₁, Delete exampleProvisioner removeAllFS exampleFS ownedPV =
        (none, fs₁) ∧
      Delete exampleProvisioner removeAllFS fs₁ ownedPV = (none, fs₁)) ∧
    (∀ (σ : Type) (removeAll : String → σ → Option GoError × σ) (s : σ)
      (e : GoError) (s' : σ),
      removeAll "/var/data/zk/default-pvc1-pv-1" s = (some e, s') →
      Delete exampleProvisioner removeAll s ownedPV = (some e, s')) :=
  delete_idempotent exampleProvisioner ownedPV
    "/var/data/zk/default-pvc1-pv-1" exampleFS (by decide) (by decide)

/-- Claim C7: every descriptor returned by a successful `Provision`
carries the claim's requested storage quantity as capacity, the claim's
access modes, the storage class's reclaim policy, the computed path, and
both annotations — `provisionerIdentity` equal to the instance's identity
and `hostpath` equal to the path handed to `MkdirAll`. -/
theorem provision_descriptor_fields {σ : Type} (p : hostPathProvisioner)
    (mkdirAll : String → Nat → σ → Option GoError × σ) (o : ProvisionOptions)
    (fs : σ) (pv : PersistentVolume) (fs' : σ)
    (h : Provision p mkdirAll o fs = .success pv fs') :
    pv.Name = o.PVName ∧
    pv.Spec.Capacity =
      [("storage", mapGet o.PVC.Spec.Resources.Requests "storage")] ∧
    pv.Spec.AccessModes = o.PVC.Spec.AccessModes ∧
    o.StorageClass.ReclaimPolicy =
      some pv.Spec.PersistentVolumeReclaimPolicy ∧
    pv.Annotations.lookup "hostPathProvisionerIdentity" = some p.identity ∧
    pv.Annotations.lookup "hostpath" = some (provisionPath p o) ∧
    pv.Spec.HostPath.Path = provisionPath p o := by
  simp only [Provision] at h
  cases hmk : mkdirAll (provisionPath p o) 0o755 fs with
  | mk eo fs₁ =>
    rw [hmk] at h
    cases eo with
    | some e => simp at h
    | none =>
      cases hrp : o.StorageClass.ReclaimPolicy with
      | none => rw [hrp] at h; simp at h
      | some rp =>
        rw [hrp] at h
        simp only [ProvResult.success.injEq] at h
        obtain ⟨hpv, _⟩ := h
        subst hpv
        exact ⟨rfl, rfl, rfl, rfl, rfl, rfl, rfl⟩

/-- Claim C7, witness: the descriptor fields of the worked example. -/
theorem provision_descriptor_fields_witness :
    examplePV.Name = exampleOptions.PVName ∧
    examplePV.Spec.Capacity =
      [("storage",
        mapGet exampleOptions.PVC.Spec.Resources.Requests "storage")] ∧
    examplePV.Spec.AccessModes = exampleOptions.PVC.Spec.AccessModes ∧
    exampleOptions.StorageClass.ReclaimPolicy =
      some examplePV.Spec.PersistentVolumeReclaimPolicy ∧
    examplePV.Annotations.lookup "hostPathProvisionerIdentity" =
      some exampleProvisioner.identity ∧
    examplePV.Annotations.lookup "hostpath" =
      some (provisionPath exampleProvisioner exampleOptions) ∧
    examplePV.Spec.HostPath.Path =
      provisionPath exampleProvisioner exampleOptions :=
  provision_descriptor_fields exampleProvisioner mkdirAllFS exampleOptions
    ([] : FS) examplePV exampleFS (by decide)

/-- Claim C8: with a non-null reclaim policy, `Provision` against the
modelled `os.MkdirAll` succeeds from any starting filesystem (a
pre-existing directory at the target path is not an error, since
`mkdirAllFS` is total), and calling it a second time with the identical
claim context and volume name succeeds with the very same descriptor —
hence the same path — and leaves the filesystem unchanged. -/
theorem provision_idempotent (p : hostPathProvisioner) (o : ProvisionOptions)
    (fs : FS) (rp : String)
    (hrp : o.StorageClass.ReclaimPolicy = some rp) :
    ∃ pv fs₁, Provision p mkdirAllFS o fs = .success pv fs₁ ∧
      Provision p mkdirAllFS o fs₁ = .success pv fs₁ := by
  obtain ⟨fs₁, hm⟩ : ∃ fs₁,
      mkdirAllFS (provisionPath p o) 0o755 fs = (none, fs₁) := ⟨_, rfl⟩
  have hm2 : mkdirAllFS (provisionPath p o) 0o755 fs₁ = (none, fs₁) := by
    have h2 := mkdirAllFS_idem (provisionPath p o) 0o755 0o755 fs
    rw [hm] at h2
    simpa using h2
  refine ⟨{ Name := o.PVName
            Annotations :=
              [("hostPathProvisionerIdentity", p.identity),
               ("hostpath", provisionPath p o)]
            Spec :=
              { PersistentVolumeReclaimPolicy := rp
                AccessModes := o.PVC.Spec.AccessModes
                Capacity :=
                  [("storage", mapGet o.PVC.Spec.Resources.Requests "storage")]
                HostPath := { Path := provisionPath p o } } },
         fs₁, ?_, ?_⟩
  · simp only [Provision, hm, hrp]
  · simp only [Provision, hm2, hrp]

/-- Claim C8, witness: the worked example provisioned twice. -/
theorem provision_idempotent_witness :
    ∃ pv fs₁,
      Provision exampleProvisioner mkdirAllFS exampleOptions ([] : FS) =
        .success pv fs₁ ∧
      Provision exampleProvisioner mkdirAllFS exampleOptions fs₁ =
        .success pv fs₁ :=
  provision_idempotent exampleProvisioner exampleOptions [] "Delete"
    (by decide)

/-- Claim C9: when recursive directory creation fails, `Provision` returns
exactly the filesystem error (verbatim), returns no descriptor (the
`failure` outcome carries none), and leaves the filesystem in whatever
state `MkdirAll` left it — no cleanup, for every filesystem behaviour. -/
theorem provision_mkdir_error_verbatim {σ : Type} (p : hostPathProvisioner)
    (mkdirAll : String → Nat → σ → Option GoError × σ) (o : ProvisionOptions)
    (fs fs' : σ) (e : GoError)
    (hm : mkdirAll (provisionPath p o) 0o755 fs = (some e, fs')) :
    Provision p mkdirAll o fs = .failure e fs' := by
  simp only [Provision, hm]

/-- Claim C9, witness: a permission error passed through verbatim. -/
theorem provision_mkdir_error_verbatim_witness :
    Provision exampleProvisioner failMkdir exampleOptions ([] : FS) =
      .failure (.fsError "permission denied") ([] : FS) :=
  provision_mkdir_error_verbatim exampleProvisioner failMkdir exampleOptions
    [] [] (.fsError "permission denied") rfl

/-- Claim C10: when the storage-class context supplies a non-null reclaim
policy, the pointer dereference in `Provision` is safe — the `nilDeref`
outcome is unreachable — and the operation does not fail on account of the
reclaim policy: whenever `MkdirAll` succeeds, `Provision` succeeds. -/
theorem provision_reclaim_deref_safe {σ : Type} (p : hostPathProvisioner)
    (mkdirAll : String → Nat → σ → Option GoError × σ) (o : ProvisionOptions)
    (fs : σ) (rp : String)
    (hrp : o.StorageClass.ReclaimPolicy = some rp) :
    (∀ fs', Provision p mkdirAll o fs ≠ .nilDeref fs') ∧
    (∀ fs₁, mkdirAll (provisionPath p o) 0o755 fs = (none, fs₁) →
      ∃ pv, Provision p mkdirAll o fs = .success pv fs₁) := by
  constructor
  · intro fs' h
    simp only [Provision] at h
    cases hmk : mkdirAll (provisionPath p o) 0o755 fs with
    | mk eo s =>
      rw [hmk] at h
      cases eo with
      | some e => simp at h
      | none => rw [hrp] at h; simp at h
  · intro fs₁ hm
    refine ⟨{ Name := o.PVName
              Annotations :=
                [("hostPathProvisionerIdentity", p.identity),
                 ("hostpath", provisionPath p o)]
              Spec :=
                { PersistentVolumeReclaimPolicy := rp
                  AccessModes := o.PVC.Spec.AccessModes
                  Capacity :=
                    [("storage",
                      mapGet o.PVC.Spec.Resources.Requests "storage")]
                  HostPath := { Path := provisionPath p o } } }, ?_⟩
    simp only [Provision, hm, hrp]

/-- Claim C10, witness: the worked example's reclaim policy is non-null
and neither branch fails. -/
theorem provision_reclaim_deref_safe_witness :
    (∀ fs', Provision exampleProvisioner mkdirAllFS exampleOptions ([] : FS) ≠
      .nilDeref fs') ∧
    (∀ fs₁,
      mkdirAllFS (provisionPath exampleProvisioner exampleOptions) 0o755
        ([] : FS) = (none, fs₁) →
      ∃ pv, Provision exampleProvisioner mkdirAllFS exampleOptions ([] : FS) =
        .success pv fs₁) :=
  provision_reclaim_deref_safe exampleProvisioner mkdirAllFS exampleOptions
    [] "Delete" rfl

end HostPath
